import Mathlib

/-!
Shallow embedding of the `proxy-worker` request-dispatch engine:
the load balancer (`src/services/load-balancer.ts`), the forwarder
(`src/services/proxy-service.ts`), the dispatcher (`src/handlers/proxy-handler.ts`)
and the helpers (`src/utils/helpers.ts`), together with theorems checking the
natural-language specification against this embedding.

Modelling conventions:
* JavaScript numbers that only ever hold integers are `Nat`/`Int`;
  numbers produced by division (scores, averages) are `Rat`.
* JS `Map` objects are association lists with `Map.set` semantics
  (`mapSet` replaces in place, else appends).
* Fetch `Headers` are association lists with case-insensitive lookup.
* External effects (`fetch`, `Math.random`, `Date.now`, the cache, health
  probes) are oracles passed in as explicit arguments.
* Timestamp strings on error bodies are elided; an error body is modelled by
  its `error` message and `status` fields.
-/

namespace ProxyWorker

/-! ## JavaScript string / collection primitives -/

/-- Lowercase a string character-wise (JS `String.prototype.toLowerCase`). -/
def lowerStr (s : String) : String := String.mk (s.data.map Char.toLower)

/-- Uppercase a string character-wise (JS `String.prototype.toUpperCase`). -/
def upperStr (s : String) : String := String.mk (s.data.map Char.toUpper)

/-- Split a character list on a separator character
(JS `String.prototype.split` with a one-character separator). -/
def splitChar (sep : Char) : List Char → List (List Char)
  | [] => [[]]
  | c :: rest =>
    let r := splitChar sep rest
    if c = sep then [] :: r
    else
      match r with
      | [] => [[c]]
      | g :: gs => (c :: g) :: gs

/-- JS `s.split(sep)` for a one-character separator string. -/
def strSplit (s : String) (sep : Char) : List String :=
  (splitChar sep s.data).map String.mk

/-- JS `String.prototype.includes`: `pat` occurs in `s` as a substring. -/
def strIncludes (s pat : String) : Bool :=
  (List.range (s.toList.length + 1)).any
    (fun i => List.isPrefixOf pat.toList (s.toList.drop i))

/-- JS `String.prototype.startsWith` (used only for spec-side definitions). -/
def strStartsWith (s pat : String) : Bool :=
  List.isPrefixOf pat.toList s.toList

/-- JS `x || d` for string-valued `x` that may be `null`/`undefined`
(`none`) or empty (falsy). -/
def jsOrStr (o : Option String) (d : String) : String :=
  match o with
  | none => d
  | some s => if s = "" then d else s

/-- JS `x || d` for number-valued `x` that may be `undefined` (`none`) or `0`
(falsy). -/
def jsOrRat (o : Option Rat) (d : Rat) : Rat :=
  match o with
  | none => d
  | some v => if v = 0 then d else v

/-- JS `parseInt(s)` (base 10): skip leading whitespace, optional sign,
longest digit run; `none` models `NaN`. -/
def jsParseInt (s : String) : Option Int :=
  let cs := s.toList.dropWhile (fun c => c = ' ' ∨ c = '\t' ∨ c = '\n' ∨ c = '\r')
  let signed : Int × List Char :=
    match cs with
    | '-' :: rest => (-1, rest)
    | '+' :: rest => (1, rest)
    | _ => (1, cs)
  let ds := signed.2.takeWhile Char.isDigit
  if ds = [] then none
  else some (signed.1 * (ds.foldl (fun acc c => acc * 10 + (c.toNat - 48)) 0 : Nat))

/-- JS `Map.prototype.get`: exact key lookup. -/
def mapGet {α : Type} (m : List (String × α)) (k : String) : Option α :=
  match m with
  | [] => none
  | p :: rest => if p.1 = k then some p.2 else mapGet rest k

/-- JS `Map.prototype.set`: replace in place preserving insertion order, else
append. -/
def mapSet {α : Type} (m : List (String × α)) (k : String) (v : α) :
    List (String × α) :=
  match m with
  | [] => [(k, v)]
  | p :: rest => if p.1 = k then (k, v) :: rest else p :: mapSet rest k v

/-- Fetch `Headers.get`: lookup is case-insensitive on header names. -/
def headersGet (hs : List (String × String)) (name : String) : Option String :=
  match hs with
  | [] => none
  | p :: rest => if lowerStr p.1 = lowerStr name then some p.2 else headersGet rest name

/-- Fetch `Headers.set`: case-insensitive replace, else append. -/
def headersSet (hs : List (String × String)) (name v : String) :
    List (String × String) :=
  match hs with
  | [] => [(name, v)]
  | p :: rest =>
    if lowerStr p.1 = lowerStr name then (p.1, v) :: rest
    else p :: headersSet rest name v

/-- JS `Math.max` over a list of values (`none` models the empty call, whose
JS value is `-Infinity`). -/
def listMax (l : List Rat) : Option Rat :=
  match l with
  | [] => none
  | x :: xs => some (xs.foldl max x)

/-! ## Data model (`src/types.ts`) -/

/-- Embeds `BackendConfig`. -/
structure Backend where
  url : String
  weight : Rat
  region : String
deriving DecidableEq, Repr

/-- Embeds `ProxyConfig`. -/
structure ProxyConfig where
  backends : List Backend
  retryAttempts : Nat
  enableCaching : Bool
  cacheMaxAge : Int
  healthCheckInterval : Int
  circuitBreakerThreshold : Int
deriving Repr

/-- Embeds `RequestInfo`. -/
structure RequestInfo where
  method : String
  path : String
  clientIP : String
  country : String
  userAgent : String
deriving DecidableEq, Repr

/-- Embeds `BackendHealth`. -/
structure BackendHealth where
  isHealthy : Bool
  lastCheck : Int
  consecutiveFailures : Nat
  avgResponseTime : Rat
deriving DecidableEq, Repr

/-- Embeds `BackendMetrics`. -/
structure BackendMetrics where
  requests : Nat
  errors : Nat
  totalTime : Int
deriving DecidableEq, Repr

/-- Body of a `Response`; JSON error bodies produced by
`createErrorResponse` are kept symbolic. -/
inductive Body where
  | empty : Body
  | errorJson (error : String) (status : Nat) : Body
  | data (tag : Nat) : Body
deriving DecidableEq, Repr

/-- A fetch `Response`. -/
structure Resp where
  status : Nat
  statusText : String
  headers : List (String × String)
  body : Body
deriving DecidableEq, Repr

/-- Embeds `Response.ok`: status in the range 200–299. -/
def respOk (r : Resp) : Bool := 200 ≤ r.status && r.status ≤ 299

/-- A JS `Error` as the code observes it: `name` and `message`. -/
structure JsError where
  name : String
  message : String
deriving DecidableEq, Repr

abbrev HealthMap := List (String × BackendHealth)
abbrev MetricsMap := List (String × BackendMetrics)

/-! ## `src/utils/helpers.ts` -/

/-- Embeds `createErrorResponse` (timestamp elided from the body model). -/
def createErrorResponse (message : String) (status : Nat) : Resp :=
  { status := status
    statusText := ""
    headers := [("Content-Type", "application/json"),
                ("Access-Control-Allow-Origin", "*")]
    body := Body.errorJson message status }

/-- Embeds `isNetworkError`. -/
def isNetworkError (e : JsError) : Bool :=
  e.name == "TypeError" ||
  strIncludes e.message "fetch" ||
  strIncludes e.message "network" ||
  strIncludes e.message "timeout"

/-- Embeds `getErrorStatus`. -/
def getErrorStatus (e : JsError) : Nat :=
  if strIncludes e.message "timeout" then 504
  else if strIncludes e.message "network" then 502
  else if strIncludes e.message "aborted" then 499
  else 503

/-! ## `src/services/proxy-service.ts` (the Forwarder) -/

/-- Outcome of one `fetch` attempt inside the Forwarder's retry loop:
either a received HTTP response or a thrown error. -/
inductive FetchOutcome where
  | resp (r : Resp) : FetchOutcome
  | exn (e : JsError) : FetchOutcome
deriving DecidableEq, Repr

/-- Embeds `ProxyService.isRetryableError`. -/
def isRetryableError (e : JsError) : Bool :=
  e.name == "TypeError" ||
  strIncludes e.message "fetch" ||
  strIncludes e.message "network" ||
  strIncludes e.message "timeout" ||
  strIncludes e.message "aborted"

/-- The retry loop body of `ProxyService.proxyRequest`, from loop index
`attempt` with `retry = retryAttempts`; `fetch` is the per-attempt network
oracle.  Returns the result and the list of backoff sleeps (in ms) performed,
in order. -/
def proxyGo (fetch : Nat → FetchOutcome) (retry attempt : Nat)
    (lastError : Option JsError) (sleeps : List Nat) :
    Except JsError Resp × List Nat :=
  if _h : attempt < retry then
    match fetch attempt with
    | FetchOutcome.resp r => (Except.ok r, sleeps)
    | FetchOutcome.exn e =>
      if isRetryableError e then
        if attempt < retry - 1 then
          proxyGo fetch retry (attempt + 1) (some e) (sleeps ++ [2 ^ attempt * 1000])
        else
          proxyGo fetch retry (attempt + 1) (some e) sleeps
      else
        (Except.error e, sleeps)
  else
    (Except.error (lastError.getD ⟨"Error", "All retry attempts failed"⟩), sleeps)
termination_by retry - attempt
decreasing_by all_goals omega

/-- Embeds `ProxyService.proxyRequest`, with the header rewriting elided (it does not
affect any claim) and the network modelled by the `fetch` oracle. -/
def proxyServiceRequest (retry : Nat) (fetch : Nat → FetchOutcome) :
    Except JsError Resp × List Nat :=
  proxyGo fetch retry 0 none []

/-! ## `src/services/load-balancer.ts` (the Selector) -/

/-- Embeds `LoadBalancer.REGION_MAP`. -/
def REGION_MAP : List (String × String) :=
  [("CN", "asia-east"), ("HK", "asia-east"), ("TW", "asia-east"),
   ("JP", "asia-northeast"), ("KR", "asia-northeast"),
   ("SG", "asia-southeast"), ("MY", "asia-southeast"), ("TH", "asia-southeast"),
   ("ID", "asia-southeast"), ("PH", "asia-southeast"), ("VN", "asia-southeast"),
   ("IN", "asia-south"), ("PK", "asia-south"), ("BD", "asia-south"),
   ("US", "us-west"), ("CA", "us-west"), ("MX", "americas-north"),
   ("BR", "americas-south"), ("AR", "americas-south"), ("CL", "americas-south"),
   ("GB", "europe-west"), ("DE", "europe-west"), ("FR", "europe-west"),
   ("NL", "europe-west"), ("IT", "europe-west"), ("ES", "europe-west"),
   ("PL", "europe-east"), ("CZ", "europe-east"), ("RU", "europe-east"),
   ("AU", "oceania"), ("NZ", "oceania")]

/-- Embeds `LoadBalancer.getRegionalBackends`. -/
def getRegionalBackends (backends : List Backend) (clientCountry : String) :
    List Backend :=
  if clientCountry = "" ∨ clientCountry = "unknown" then []
  else
    match mapGet REGION_MAP (upperStr clientCountry) with
    | none => []
    | some preferredRegion =>
      let exactMatches := backends.filter
        (fun b => lowerStr b.region = lowerStr preferredRegion)
      if exactMatches.length = 0 then
        let regionParts := strSplit preferredRegion '-'
        backends.filter (fun b =>
          regionParts.any (fun part => strIncludes (lowerStr b.region) part))
      else exactMatches

/-- The walk of `LoadBalancer.weightedRandomSelect`: subtract weights from the
draw until it is `≤ 0`; `fallback` is `backends[backends.length - 1]` of the
original list. -/
def wrsWalk (fallback : Option Backend) :
    List Backend → Rat → Option Backend
  | [], _ => fallback
  | b :: rest, random =>
    if random - b.weight ≤ 0 then some b
    else wrsWalk fallback rest (random - b.weight)

/-- Embeds `LoadBalancer.weightedRandomSelect`, with `Math.random()` passed in as
`r`; the JS draw is `r * totalWeight` for `r ∈ [0, 1)`.  `none` models the
undefined index accesses on an empty list. -/
def weightedRandomSelect (backends : List Backend) (r : Rat) : Option Backend :=
  let totalWeight := backends.foldl (fun sum b => sum + b.weight) 0
  if totalWeight = 0 then backends.head?
  else wrsWalk backends.getLast? backends (r * totalWeight)

/-- The per-backend score of `LoadBalancer.selectByPerformance`
(error rate 70 %, response time 30 %; 50 for new backends). -/
def performanceScore (metrics : MetricsMap) (url : String) : Rat :=
  match mapGet metrics url with
  | none => 50
  | some metric =>
    if metric.requests = 0 then 50
    else
      let errorRate : Rat := (metric.errors : Rat) / (metric.requests : Rat)
      let avgResponseTime : Rat := (metric.totalTime : Rat) / (metric.requests : Rat)
      let errorScore := errorRate * 100 * (7 / 10)
      let timeScore := min (avgResponseTime / 100) 50 * (3 / 10)
      errorScore + timeScore

/-- The `scores` map built by the loop in `LoadBalancer.selectByPerformance`
(a JS `Map` keyed by backend url). -/
def performanceScores (backends : List Backend) (metrics : MetricsMap) :
    List (String × Rat) :=
  backends.foldl (fun scores b => mapSet scores b.url (performanceScore metrics b.url)) []

/-- The transient weight assigned by `LoadBalancer.selectByPerformance`:
`Math.max(1, Math.floor(maxScore - (scores.get(url) || 50)))` — note the JS
`|| 50` which also fires when the stored score is `0`. -/
def transientWeight (scores : List (String × Rat)) (maxScore : Rat)
    (url : String) : Rat :=
  ((max 1 (Int.floor (maxScore - jsOrRat (mapGet scores url) 50)) : Int) : Rat)

/-- Embeds `LoadBalancer.selectByPerformance`. -/
def selectByPerformance (backends : List Backend) (metrics : MetricsMap)
    (r : Rat) : Option Backend :=
  let scores := performanceScores backends metrics
  match listMax (scores.map Prod.snd) with
  | none => none
  | some mx =>
    let maxScore := mx + 1
    let weightedBackends := backends.map
      (fun b => { b with weight := transientWeight scores maxScore b.url })
    weightedRandomSelect weightedBackends r

/-- Embeds `LoadBalancer.selectBackend`, with `Math.random()` as `r`. -/
def selectBackend (backends : List Backend) (requestInfo : RequestInfo)
    (metrics : Option MetricsMap) (r : Rat) : Option Backend :=
  if backends.length = 1 then backends.head?
  else
    let regionalBackends := getRegionalBackends backends requestInfo.country
    let candidateBackends :=
      if regionalBackends.length > 0 then regionalBackends else backends
    match metrics with
    | some m =>
      if m.length > 0 then selectByPerformance candidateBackends m r
      else weightedRandomSelect candidateBackends r
    | none => weightedRandomSelect candidateBackends r

/-! ## `src/handlers/proxy-handler.ts` (the Dispatcher) -/

/-- A client request as `ProxyHandler` observes it: method, the
`pathname + search` of its URL, and its headers. -/
structure Req where
  method : String
  pathQuery : String
  headers : List (String × String)
deriving DecidableEq, Repr

/-- Outcome of one active health probe (`HEAD {url}/health`):
a 2xx response, a non-2xx response, or a thrown network error. -/
inductive ProbeOutcome where
  | ok : ProbeOutcome
  | httpFail : ProbeOutcome
  | netFail : ProbeOutcome
deriving DecidableEq, Repr

/-- Observable external effects of one dispatch, in order. -/
inductive Event where
  | cacheLookup : Event
  | probe (url : String) : Event
  | attempt (i : Nat) (url : String) : Event
  | cacheStore : Event
deriving DecidableEq, Repr

/-- The external world of one dispatch: clock, cache, probe results,
`Math.random()` draws per failover iteration, `fetch` outcomes per
(failover iteration, forwarder attempt), and the measured duration. -/
structure DispatchOracles where
  now : Int
  cached : Option Resp
  probes : String → ProbeOutcome
  randoms : Nat → Rat
  fetches : Nat → Nat → FetchOutcome
  duration : Int

/-- The health table built in the `ProxyHandler` constructor. -/
def initHealth (backends : List Backend) : HealthMap :=
  backends.foldl
    (fun acc b => mapSet acc b.url
      { isHealthy := true, lastCheck := 0, consecutiveFailures := 0,
        avgResponseTime := 0 }) []

/-- The metrics table built in the `ProxyHandler` constructor. -/
def initMetrics (backends : List Backend) : MetricsMap :=
  backends.foldl
    (fun acc b => mapSet acc b.url { requests := 0, errors := 0, totalTime := 0 }) []

/-- Embeds `ProxyHandler.parseRequest`. -/
def parseRequest (req : Req) : RequestInfo :=
  { method := req.method
    path := req.pathQuery
    clientIP := jsOrStr (headersGet req.headers "CF-Connecting-IP") "unknown"
    country := jsOrStr (headersGet req.headers "CF-IPCountry") "unknown"
    userAgent := jsOrStr (headersGet req.headers "User-Agent") "unknown" }

/-- Embeds `ProxyHandler.markBackendHealthy`. -/
def markBackendHealthy (health : HealthMap) (url : String) : HealthMap :=
  match mapGet health url with
  | none => health
  | some h => mapSet health url
      { h with isHealthy := true, consecutiveFailures := 0 }

/-- Embeds `ProxyHandler.markBackendUnhealthy` (`T = circuitBreakerThreshold`). -/
def markBackendUnhealthy (T : Int) (health : HealthMap) (url : String) :
    HealthMap :=
  match mapGet health url with
  | none => health
  | some h =>
    let cf := h.consecutiveFailures + 1
    mapSet health url
      { h with consecutiveFailures := cf, isHealthy := decide ((cf : Int) < T) }

/-- Embeds `ProxyHandler.checkBackendHealth`: apply one probe outcome, stamping
`lastCheck` with the current time. -/
def checkBackendHealth (T : Int) (health : HealthMap) (url : String)
    (outcome : ProbeOutcome) (now : Int) : HealthMap :=
  match mapGet health url with
  | none => health
  | some h =>
    match outcome with
    | ProbeOutcome.ok =>
      mapSet health url
        { h with isHealthy := true, consecutiveFailures := 0, lastCheck := now }
    | ProbeOutcome.httpFail =>
      let cf := h.consecutiveFailures + 1
      mapSet health url
        { h with
          consecutiveFailures := cf
          isHealthy := decide ((cf : Int) < T)
          lastCheck := now }
    | ProbeOutcome.netFail =>
      let cf := h.consecutiveFailures + 1
      mapSet health url
        { h with
          consecutiveFailures := cf
          isHealthy := decide ((cf : Int) < T)
          lastCheck := now }

/-- Embeds `ProxyHandler.getHealthyBackends`: run stale probes, then filter by
`health?.isHealthy !== false`. -/
def getHealthyBackends (cfg : ProxyConfig) (health : HealthMap) (now : Int)
    (probes : String → ProbeOutcome) : List Backend × HealthMap × List Event :=
  let step := cfg.backends.foldl
    (fun (acc : HealthMap × List Event) b =>
      match mapGet acc.1 b.url with
      | some h =>
        if cfg.healthCheckInterval < now - h.lastCheck then
          (checkBackendHealth cfg.circuitBreakerThreshold acc.1 b.url (probes b.url) now,
           acc.2 ++ [Event.probe b.url])
        else acc
      | none => acc)
    (health, [])
  (cfg.backends.filter (fun b =>
      match mapGet step.1 b.url with
      | some h => h.isHealthy
      | none => true),
   step.1, step.2)

/-- Embeds `ProxyHandler.updateMetrics`: bump the metrics record and smooth
`avgResponseTime` on the health record. -/
def updateMetrics (metrics : MetricsMap) (health : HealthMap) (url : String)
    (duration : Int) (success : Bool) : MetricsMap × HealthMap :=
  let metrics' :=
    match mapGet metrics url with
    | none => metrics
    | some m => mapSet metrics url
        { requests := m.requests + 1
          errors := if success then m.errors else m.errors + 1
          totalTime := m.totalTime + duration }
  let health' :=
    match mapGet health url with
    | none => health
    | some h => mapSet health url
        { h with avgResponseTime := (h.avgResponseTime + (duration : Rat)) / 2 }
  (metrics', health')

/-- Embeds `ProxyHandler.shouldCacheResponse`. -/
def shouldCacheResponse (cfg : ProxyConfig) (method : String) (resp : Resp) :
    Bool :=
  if !cfg.enableCaching || method ≠ "GET" || !respOk resp then false
  else
    let cacheControl := headersGet resp.headers "cache-control"
    if (match cacheControl with
        | some cc => strIncludes cc "no-cache" || strIncludes cc "private"
        | none => false) then false
    else
      let contentType := (headersGet resp.headers "content-type").getD ""
      strIncludes contentType "application/json" ||
      strIncludes contentType "text/" ||
      strIncludes contentType "application/xml"

/-- Embeds `ProxyHandler.isRequestTooLarge`: `contentLength ? parseInt(contentLength)
> 10 * 1024 * 1024 : false`. -/
def isRequestTooLarge (req : Req) : Bool :=
  match headersGet req.headers "content-length" with
  | none => false
  | some contentLength =>
    if contentLength = "" then false
    else
      match jsParseInt contentLength with
      | some v => decide (10 * 1024 * 1024 < v)
      | none => false

/-- Re-wrap a backend response with modifiable headers and add
`X-Backend-URL` and `X-Backend-Region`. -/
def annotateResp (r : Resp) (backend : Backend) : Resp :=
  let hs := headersSet (headersSet r.headers "X-Backend-URL" backend.url)
    "X-Backend-Region" backend.region
  { r with headers := hs }

/-- The error the Dispatcher constructs for a 5xx backend response. -/
def backendStatusError (status : Nat) : JsError :=
  ⟨"Error", "Backend returned " ++ toString status⟩

/-- The failover loop of `ProxyHandler.proxyRequestWithFallback`, from
iteration `i` with `bound = min(backends.length, 3)`.  `attemptRes i` is the
result of `proxyService.proxyRequest` on iteration `i`. -/
def fallbackGo (cfg : ProxyConfig) (backends : List Backend)
    (requestInfo : RequestInfo) (metrics : MetricsMap) (randoms : Nat → Rat)
    (attemptRes : Nat → Except JsError Resp) (bound i : Nat)
    (health : HealthMap) (lastError : Option JsError) (events : List Event) :
    Except JsError Resp × HealthMap × List Event :=
  if _h : i < bound then
    match selectBackend backends requestInfo (some metrics) (randoms i) with
    | none =>
      (Except.error (lastError.getD ⟨"Error", "All backends failed"⟩), health, events)
    | some backend =>
      match attemptRes i with
      | Except.ok response =>
        if respOk response then
          (Except.ok (annotateResp response backend),
           markBackendHealthy health backend.url,
           events ++ [Event.attempt i backend.url])
        else if 500 ≤ response.status then
          fallbackGo cfg backends requestInfo metrics randoms attemptRes bound
            (i + 1)
            (markBackendUnhealthy cfg.circuitBreakerThreshold health backend.url)
            (some (backendStatusError response.status))
            (events ++ [Event.attempt i backend.url])
        else
          (Except.ok (annotateResp response backend), health,
           events ++ [Event.attempt i backend.url])
      | Except.error e =>
        let health' := markBackendUnhealthy cfg.circuitBreakerThreshold health backend.url
        if isNetworkError e && i < bound - 1 then
          fallbackGo cfg backends requestInfo metrics randoms attemptRes bound
            (i + 1) health' (some e) (events ++ [Event.attempt i backend.url])
        else
          (Except.error e, health', events ++ [Event.attempt i backend.url])
  else
    (Except.error (lastError.getD ⟨"Error", "All backends failed"⟩), health, events)
termination_by bound - i
decreasing_by all_goals omega

/-- Embeds `ProxyHandler.proxyRequestWithFallback`. -/
def proxyRequestWithFallback (cfg : ProxyConfig) (req : Req)
    (metrics : MetricsMap) (randoms : Nat → Rat)
    (attemptRes : Nat → Except JsError Resp) (backends : List Backend)
    (health : HealthMap) : Except JsError Resp × HealthMap × List Event :=
  fallbackGo cfg backends (parseRequest req) metrics randoms attemptRes
    (min backends.length 3) 0 health none []

/-- Embeds `ProxyHandler.handleRequest`: size check, cache lookup, healthy-set
filter, failover loop, metrics update, cache store; the surrounding `catch`
maps a thrown error through `getErrorStatus`. -/
def handleRequest (cfg : ProxyConfig) (req : Req) (health : HealthMap)
    (metrics : MetricsMap) (o : DispatchOracles) :
    Resp × HealthMap × MetricsMap × List Event :=
  if isRequestTooLarge req then
    (createErrorResponse "Request too large" 413, health, metrics, [])
  else
    let cacheStep : Option Resp × List Event :=
      if cfg.enableCaching && req.method = "GET" then (o.cached, [Event.cacheLookup])
      else (none, [])
    match cacheStep with
    | (some cachedResponse, events) => (cachedResponse, health, metrics, events)
    | (none, events) =>
      let healthyStep := getHealthyBackends cfg health o.now o.probes
      let events := events ++ healthyStep.2.2
      if healthyStep.1.length = 0 then
        (createErrorResponse "All backends unavailable" 503, healthyStep.2.1,
         metrics, events)
      else
        let attemptRes : Nat → Except JsError Resp :=
          fun i => (proxyServiceRequest cfg.retryAttempts (o.fetches i)).1
        match proxyRequestWithFallback cfg req metrics o.randoms attemptRes
            healthyStep.1 healthyStep.2.1 with
        | (Except.ok response, health', loopEvents) =>
          let backendUrl := jsOrStr (headersGet response.headers "X-Backend-URL") ""
          let updated := updateMetrics metrics health' backendUrl o.duration
            (respOk response)
          let events := events ++ loopEvents
          if shouldCacheResponse cfg req.method response then
            (response, updated.2, updated.1, events ++ [Event.cacheStore])
          else
            (response, updated.2, updated.1, events)
        | (Except.error e, health', loopEvents) =>
          (createErrorResponse "Service temporarily unavailable" (getErrorStatus e),
           health', metrics, events ++ loopEvents)

/-! ## Derived notions used by the theorems -/

/-- One observable health-state event of §4.3: an explicit mark from the
failover loop, or the application of one active-probe outcome. -/
inductive HealthEvent where
  | markHealthy (url : String) : HealthEvent
  | markFailure (url : String) : HealthEvent
  | probeResult (url : String) (outcome : ProbeOutcome) (now : Int) : HealthEvent

/-- Apply one health event through the corresponding `ProxyHandler` method. -/
def applyHealthEvent (T : Int) (health : HealthMap) : HealthEvent → HealthMap
  | HealthEvent.markHealthy url => markBackendHealthy health url
  | HealthEvent.markFailure url => markBackendUnhealthy T health url
  | HealthEvent.probeResult url outcome now => checkBackendHealth T health url outcome now

/-- Apply a sequence of health events in order. -/
def applyHealthEvents (T : Int) (health : HealthMap) (es : List HealthEvent) :
    HealthMap :=
  es.foldl (applyHealthEvent T) health

/-- The circuit-breaker invariant of §3:
`isHealthy ⇔ consecutiveFailures < circuitBreakerThreshold`, for every record
in the table. -/
def healthInvariant (T : Int) (health : HealthMap) : Prop :=
  ∀ p ∈ health, (p.2.isHealthy = true ↔ (p.2.consecutiveFailures : Int) < T)

/-- Apply a sequence of recorded outcomes `(url, durationMs, success)`
through `ProxyHandler.updateMetrics`. -/
def applyOutcomes (metrics : MetricsMap) (health : HealthMap)
    (us : List (String × Int × Bool)) : MetricsMap × HealthMap :=
  us.foldl (fun st u => updateMetrics st.1 st.2 u.1 u.2.1 u.2.2) (metrics, health)

/-- One upstream attempt ended in a retryable (network-class) thrown error. -/
def retryableFailureAt (fetch : Nat → FetchOutcome) (j : Nat) : Prop :=
  ∃ e, fetch j = FetchOutcome.exn e ∧ isRetryableError e = true

/-- The Forwarder's backoff schedule after `i` failed attempts:
`2^0, 2^1, …, 2^(i-1)` seconds, in milliseconds. -/
def backoffSleeps (i : Nat) : List Nat :=
  (List.range i).map (fun j => 2 ^ j * 1000)

/-- The backoff sleeps performed between loop indices `a` and `a + k`:
`2^a, 2^(a+1), …` seconds, in milliseconds. -/
def backoffSeg : Nat → Nat → List Nat
  | _, 0 => []
  | a, k + 1 => 2 ^ a * 1000 :: backoffSeg (a + 1) k

/-- Following the spec text of §4.6 verbatim: the cache-store policy with
`Content-Type` required to *begin with* one of the allowed prefixes (the
source instead tests substring containment). -/
def specCacheStorePolicy (cfg : ProxyConfig) (method : String) (resp : Resp) :
    Bool :=
  cfg.enableCaching && method = "GET" && respOk resp &&
  !(match headersGet resp.headers "cache-control" with
    | some cc => strIncludes cc "no-cache" || strIncludes cc "private"
    | none => false) &&
  (let contentType := (headersGet resp.headers "content-type").getD ""
   strStartsWith contentType "application/json" ||
   strStartsWith contentType "text/" ||
   strStartsWith contentType "application/xml")

/-! ### Scenario constants used by concrete theorems (from §8 of the spec) -/

/-- Backend `A` of the geographic-routing scenario. -/
def backendUsWest : Backend := ⟨"https://a", 1, "us-west"⟩

/-- Backend `B` of the geographic-routing scenario. -/
def backendAsiaEast : Backend := ⟨"https://b", 1, "asia-east"⟩

/-- A request context with `CF-IPCountry: JP`. -/
def requestInfoJP : RequestInfo := ⟨"GET", "/x", "1.2.3.4", "JP", "ua"⟩

/-- A one-backend configuration with the default thresholds. -/
def cfgOne : ProxyConfig := ⟨[backendUsWest], 2, true, 300, 30000, 5⟩

/-- A health table in which `backendUsWest` has two consecutive failures. -/
def healthTwoFailures : HealthMap :=
  [("https://a", ⟨true, 0, 2, 0⟩)]

/-- A backend 404 response. -/
def resp404 : Resp := ⟨404, "Not Found", [("content-type", "text/plain")], Body.data 7⟩

/-- Metrics under which `backendUsWest` has a perfect record
(1 request, 0 errors, 0 total time): its performance score is `0`. -/
def metricsPerfect : MetricsMap := [("https://a", ⟨1, 0, 0⟩)]

/-- A backend 200 response with a JSON content type. -/
def resp200 : Resp :=
  ⟨200, "OK", [("content-type", "application/json")], Body.data 2⟩

/-- A POST request with `Content-Length: 20971520` (20 MiB). -/
def reqOversize : Req :=
  ⟨"POST", "/upload", [("Content-Length", "20971520")]⟩

/-- A fixed oracle assignment for concrete dispatch runs. -/
def oraclesFixed : DispatchOracles :=
  ⟨0, none, fun _ => ProbeOutcome.ok, fun _ => 0,
   fun _ _ => FetchOutcome.exn ⟨"TypeError", "fetch failed"⟩, 10⟩

/-! ## Association-list and header lemmas -/

theorem mapGet_mapSet_self {α : Type} (m : List (String × α)) (k : String) (v : α) :
    mapGet (mapSet m k v) k = some v := by
  induction m with
  | nil => simp [mapGet, mapSet]
  | cons p rest ih =>
    by_cases h : p.1 = k
    · simp [mapGet, mapSet, h]
    · simp [mapGet, mapSet, h, ih]

theorem mapGet_mapSet_ne {α : Type} (m : List (String × α)) (k k' : String)
    (v : α) (h : k' ≠ k) : mapGet (mapSet m k v) k' = mapGet m k' := by
  induction m with
  | nil => simp [mapGet, mapSet, Ne.symm h]
  | cons p rest ih =>
    by_cases hp : p.1 = k
    · subst hp
      simp [mapGet, mapSet, Ne.symm h]
    · by_cases hp' : p.1 = k'
      · simp [mapGet, mapSet, hp, hp', h]
      · simp [mapGet, mapSet, hp, hp', ih]

theorem mem_of_mapGet_eq_some {α : Type} {m : List (String × α)} {k : String}
    {v : α} (h : mapGet m k = some v) : (k, v) ∈ m := by
  induction m with
  | nil => simp [mapGet] at h
  | cons p rest ih =>
    obtain ⟨a, b⟩ := p
    by_cases hp : a = k
    · subst hp
      simp [mapGet] at h
      simp [h]
    · simp [mapGet, hp] at h
      exact List.mem_cons_of_mem _ (ih h)

theorem mem_mapSet {α : Type} {m : List (String × α)} {k : String} {v : α}
    {p : String × α} (h : p ∈ mapSet m k v) : p = (k, v) ∨ p ∈ m := by
  induction m with
  | nil => simp [mapSet] at h; simp [h]
  | cons q rest ih =>
    by_cases hq : q.1 = k
    · simp [mapSet, hq] at h
      rcases h with h | h
      · exact Or.inl h
      · exact Or.inr (by simp [h])
    · simp [mapSet, hq] at h
      rcases h with h | h
      · exact Or.inr (by simp [h])
      · rcases ih h with h' | h'
        · exact Or.inl h'
        · exact Or.inr (by simp [h'])

/-- Every value in a fold of constant-value `mapSet`s over an accumulator of
constant values is that constant. -/
theorem foldl_mapSet_const {α : Type} (f : Backend → String) (c : α)
    (l : List Backend) (acc : List (String × α))
    (hacc : ∀ p ∈ acc, p.2 = c) :
    ∀ p ∈ l.foldl (fun m b => mapSet m (f b) c) acc, p.2 = c := by
  induction l generalizing acc with
  | nil => exact hacc
  | cons b rest ih =>
    refine ih (mapSet acc (f b) c) ?_
    intro p hp
    rcases mem_mapSet hp with h | h
    · simp [h]
    · exact hacc p h

theorem initHealth_values (backends : List Backend) (url : String)
    (h : BackendHealth) (hget : mapGet (initHealth backends) url = some h) :
    h = { isHealthy := true, lastCheck := 0, consecutiveFailures := 0,
          avgResponseTime := 0 } := by
  have := foldl_mapSet_const (fun b => b.url)
    ({ isHealthy := true, lastCheck := 0, consecutiveFailures := 0,
       avgResponseTime := 0 } : BackendHealth) backends [] (by simp)
    (url, h) (mem_of_mapGet_eq_some hget)
  simpa using this

theorem initMetrics_values (backends : List Backend) (url : String)
    (m : BackendMetrics) (hget : mapGet (initMetrics backends) url = some m) :
    m = { requests := 0, errors := 0, totalTime := 0 } := by
  have := foldl_mapSet_const (fun b => b.url)
    ({ requests := 0, errors := 0, totalTime := 0 } : BackendMetrics)
    backends [] (by simp) (url, m) (mem_of_mapGet_eq_some hget)
  simpa using this

/-! ## Equation lemmas for `updateMetrics` -/

theorem updateMetrics_fst (metrics : MetricsMap) (health : HealthMap)
    (url : String) (d : Int) (s : Bool) :
    (updateMetrics metrics health url d s).1 =
      match mapGet metrics url with
      | none => metrics
      | some m => mapSet metrics url
          { requests := m.requests + 1
            errors := if s then m.errors else m.errors + 1
            totalTime := m.totalTime + d } := rfl

theorem updateMetrics_snd (metrics : MetricsMap) (health : HealthMap)
    (url : String) (d : Int) (s : Bool) :
    (updateMetrics metrics health url d s).2 =
      match mapGet health url with
      | none => health
      | some h => mapSet health url
          { h with avgResponseTime := (h.avgResponseTime + (d : Rat)) / 2 } := rfl

/-! ## C8 — the `avgResponseTime` recurrence -/

/-- C8: recording an outcome with duration `d` updates `avgResponseTime` by
exactly `a ← (a + d)/2`; the table initializes it to `0`, so the first
recorded duration yields `d/2`, which differs from `d` whenever `d ≠ 0`. -/
theorem C8_avgResponseTime_recurrence (metrics : MetricsMap)
    (health : HealthMap) (url : String) (d : Int) (success : Bool)
    (h : BackendHealth) (hget : mapGet health url = some h) :
    mapGet (updateMetrics metrics health url d success).2 url =
      some { h with avgResponseTime := (h.avgResponseTime + (d : Rat)) / 2 } ∧
    (h.avgResponseTime = 0 →
      mapGet (updateMetrics metrics health url d success).2 url =
        some { h with avgResponseTime := (d : Rat) / 2 }) ∧
    ((d : Rat) ≠ 0 → (d : Rat) / 2 ≠ (d : Rat)) ∧
    (∀ (backends : List Backend) (h₀ : BackendHealth),
      mapGet (initHealth backends) url = some h₀ → h₀.avgResponseTime = 0) := by
  refine ⟨?_, ?_, ?_, ?_⟩
  · rw [updateMetrics_snd, hget]
    exact mapGet_mapSet_self health url _
  · intro h0
    have h1 : mapGet (updateMetrics metrics health url d success).2 url =
        some { h with avgResponseTime := (h.avgResponseTime + (d : Rat)) / 2 } := by
      rw [updateMetrics_snd, hget]
      exact mapGet_mapSet_self health url _
    rw [h1, h0, zero_add]
  · intro hd hc
    apply hd
    linarith [hc]
  · intro backends h₀ hg
    rw [initHealth_values backends url h₀ hg]

/-- Witness for C8 at a concrete input: a fresh health record receives
`avgResponseTime = 10/2 = 5` on its first recorded duration `10`. -/
theorem C8_witness :
    mapGet (updateMetrics [] [("u", ⟨true, 0, 0, 0⟩)] "u" 10 true).2 "u" =
      some ⟨true, 0, 0, 5⟩ := by
  have h := (C8_avgResponseTime_recurrence [] [("u", ⟨true, 0, 0, 0⟩)] "u" 10
    true ⟨true, 0, 0, 0⟩ (by rfl)).2.1 rfl
  rw [h]
  norm_num

/-! ## C7 — metrics invariants -/

theorem updateMetrics_err_le_req (metrics : MetricsMap) (health : HealthMap)
    (url : String) (d : Int) (s : Bool)
    (hinv : ∀ p ∈ metrics, p.2.errors ≤ p.2.requests) :
    ∀ p ∈ (updateMetrics metrics health url d s).1,
      p.2.errors ≤ p.2.requests := by
  intro p hp
  rw [updateMetrics_fst] at hp
  cases hm : mapGet metrics url with
  | none => rw [hm] at hp; exact hinv p hp
  | some m =>
    rw [hm] at hp
    rcases mem_mapSet hp with h | h
    · have hmem := hinv (url, m) (mem_of_mapGet_eq_some hm)
      simp at hmem
      simp only [h]
      cases s <;> simp <;> omega
    · exact hinv p h

theorem applyOutcomes_err_le_req (us : List (String × Int × Bool)) :
    ∀ (metrics : MetricsMap) (health : HealthMap),
      (∀ p ∈ metrics, p.2.errors ≤ p.2.requests) →
      ∀ p ∈ (applyOutcomes metrics health us).1,
        p.2.errors ≤ p.2.requests := by
  induction us with
  | nil => intro metrics health hinv; exact hinv
  | cons u rest ih =>
    intro metrics health hinv
    have hstep := updateMetrics_err_le_req metrics health u.1 u.2.1 u.2.2 hinv
    simpa [applyOutcomes] using
      ih (updateMetrics metrics health u.1 u.2.1 u.2.2).1
        (updateMetrics metrics health u.1 u.2.1 u.2.2).2 hstep

theorem updateMetrics_totalTime_mono (metrics : MetricsMap)
    (health : HealthMap) (url : String) (d : Int) (s : Bool) (hd : 0 ≤ d)
    (u : String) (rec : BackendMetrics) (hget : mapGet metrics u = some rec) :
    ∃ rec', mapGet (updateMetrics metrics health url d s).1 u = some rec' ∧
      rec.totalTime ≤ rec'.totalTime := by
  rw [updateMetrics_fst]
  cases hm : mapGet metrics url with
  | none => exact ⟨rec, hget, le_refl _⟩
  | some m =>
    by_cases hu : u = url
    · subst hu
      have hrec : m = rec := by
        rw [hget] at hm
        injection hm with hrecv
        exact hrecv.symm
      subst hrec
      refine ⟨_, mapGet_mapSet_self metrics u _, ?_⟩
      simp
      omega
    · rw [mapGet_mapSet_ne metrics url u _ hu]
      exact ⟨rec, hget, le_refl _⟩

theorem applyOutcomes_totalTime_mono (us : List (String × Int × Bool)) :
    ∀ (metrics : MetricsMap) (health : HealthMap) (u : String)
      (rec : BackendMetrics),
      (∀ x ∈ us, 0 ≤ x.2.1) →
      mapGet metrics u = some rec →
      ∃ rec', mapGet (applyOutcomes metrics health us).1 u = some rec' ∧
        rec.totalTime ≤ rec'.totalTime := by
  induction us with
  | nil => intro metrics health u rec _ hget; exact ⟨rec, hget, le_refl _⟩
  | cons x rest ih =>
    intro metrics health u rec hd hget
    obtain ⟨rec₁, hget₁, hle₁⟩ := updateMetrics_totalTime_mono metrics health
      x.1 x.2.1 x.2.2 (hd x (by simp)) u rec hget
    obtain ⟨rec₂, hget₂, hle₂⟩ := ih (updateMetrics metrics health x.1 x.2.1 x.2.2).1
      (updateMetrics metrics health x.1 x.2.1 x.2.2).2 u rec₁
      (fun y hy => hd y (by simp [hy])) hget₁
    refine ⟨rec₂, ?_, le_trans hle₁ hle₂⟩
    simpa [applyOutcomes] using hget₂

/-- C7: starting from `requests = errors = totalTime = 0`, every sequence of
`updateMetrics` outcomes with non-negative durations keeps
`errors ≤ requests` in every record, and `totalTime` never decreases between
any prefix of the update sequence and any extension of it. -/
theorem C7_metrics_invariant (backends : List Backend)
    (us₁ us₂ : List (String × Int × Bool))
    (hd : ∀ u ∈ us₁ ++ us₂, 0 ≤ u.2.1) :
    (∀ p ∈ (applyOutcomes (initMetrics backends) (initHealth backends)
        (us₁ ++ us₂)).1, p.2.errors ≤ p.2.requests) ∧
    (∀ url m₁,
      mapGet (applyOutcomes (initMetrics backends) (initHealth backends) us₁).1
          url = some m₁ →
      ∃ m₂, mapGet (applyOutcomes (initMetrics backends) (initHealth backends)
          (us₁ ++ us₂)).1 url = some m₂ ∧ m₁.totalTime ≤ m₂.totalTime) := by
  have hinit : ∀ p ∈ initMetrics backends, p.2.errors ≤ p.2.requests := by
    intro p hp
    have := foldl_mapSet_const (fun b => b.url)
      ({ requests := 0, errors := 0, totalTime := 0 } : BackendMetrics)
      backends [] (by simp) p hp
    simp [this]
  constructor
  · exact applyOutcomes_err_le_req (us₁ ++ us₂) _ _ hinit
  · intro url m₁ hget₁
    have happ : applyOutcomes (initMetrics backends) (initHealth backends)
        (us₁ ++ us₂) =
        applyOutcomes
          (applyOutcomes (initMetrics backends) (initHealth backends) us₁).1
          (applyOutcomes (initMetrics backends) (initHealth backends) us₁).2
          us₂ := by
      simp [applyOutcomes, List.foldl_append]
    rw [happ]
    exact applyOutcomes_totalTime_mono us₂ _ _ url m₁
      (fun y hy => hd y (by simp [hy])) hget₁

/-- Witness for C7 at a concrete input: two outcomes (success then failure)
against a one-backend table. -/
theorem C7_witness :
    ∃ m₂, mapGet (applyOutcomes (initMetrics [backendUsWest])
        (initHealth [backendUsWest])
        ([("https://a", 5, true)] ++ [("https://a", 7, false)])).1
        "https://a" = some m₂ ∧
      (⟨1, 0, 5⟩ : BackendMetrics).totalTime ≤ m₂.totalTime :=
  (C7_metrics_invariant [backendUsWest]
    [("https://a", 5, true)] [("https://a", 7, false)] (by decide)).2
    "https://a" ⟨1, 0, 5⟩ (by decide)

/-! ## C3 — the circuit-breaker invariant -/

theorem healthInvariant_init (T : Int) (hT : 0 < T)
    (backends : List Backend) : healthInvariant T (initHealth backends) := by
  intro p hp
  have := foldl_mapSet_const (fun b => b.url)
    ({ isHealthy := true, lastCheck := 0, consecutiveFailures := 0,
       avgResponseTime := 0 } : BackendHealth) backends [] (by simp) p hp
  rw [this]
  simpa using hT

theorem healthInvariant_step (T : Int) (hT : 0 < T) (health : HealthMap)
    (e : HealthEvent) (hinv : healthInvariant T health) :
    healthInvariant T (applyHealthEvent T health e) := by
  cases e with
  | markHealthy url =>
    simp only [applyHealthEvent, markBackendHealthy]
    cases hm : mapGet health url with
    | none => exact hinv
    | some h =>
      intro p hp
      rcases mem_mapSet hp with hpe | hpe
      · rw [hpe]
        simpa using hT
      · exact hinv p hpe
  | markFailure url =>
    simp only [applyHealthEvent, markBackendUnhealthy]
    cases hm : mapGet health url with
    | none => exact hinv
    | some h =>
      intro p hp
      rcases mem_mapSet hp with hpe | hpe
      · rw [hpe]
        simp
      · exact hinv p hpe
  | probeResult url outcome now =>
    simp only [applyHealthEvent, checkBackendHealth]
    cases hm : mapGet health url with
    | none => exact hinv
    | some h =>
      cases outcome with
      | ok =>
        intro p hp
        rcases mem_mapSet hp with hpe | hpe
        · rw [hpe]
          simpa using hT
        · exact hinv p hpe
      | httpFail =>
        intro p hp
        rcases mem_mapSet hp with hpe | hpe
        · rw [hpe]
          simp
        · exact hinv p hpe
      | netFail =>
        intro p hp
        rcases mem_mapSet hp with hpe | hpe
        · rw [hpe]
          simp
        · exact hinv p hpe

/-- C3: after initialization and after any sequence of `MarkHealthy`,
`MarkFailure` and probe-outcome updates, every health record satisfies
`isHealthy ⇔ consecutiveFailures < circuitBreakerThreshold` (for a positive
threshold); each mutation re-derives `isHealthy` from the updated counter in
the same step. -/
theorem C3_circuit_breaker_invariant (T : Int) (hT : 0 < T)
    (backends : List Backend) (events : List HealthEvent) :
    healthInvariant T (applyHealthEvents T (initHealth backends) events) := by
  suffices hgen : ∀ (health : HealthMap), healthInvariant T health →
      healthInvariant T (applyHealthEvents T health events) from
    hgen (initHealth backends) (healthInvariant_init T hT backends)
  induction events with
  | nil => intro health hinv; exact hinv
  | cons e rest ih =>
    intro health hinv
    simpa [applyHealthEvents] using
      ih (applyHealthEvent T health e) (healthInvariant_step T hT health e hinv)

/-- Witness for C3 at a concrete input: threshold 5, one backend, a failure,
a failed probe and a recovery. -/
theorem C3_witness :
    healthInvariant 5 (applyHealthEvents 5 (initHealth [backendUsWest])
      [HealthEvent.markFailure "https://a",
       HealthEvent.probeResult "https://a" ProbeOutcome.netFail 50,
       HealthEvent.markHealthy "https://a"]) :=
  C3_circuit_breaker_invariant 5 (by norm_num) [backendUsWest] _

/-! ## C5 — the cache-store predicate -/

/-- C5 counterexample: a 200 GET response whose `Content-Type` is
`x-text/html` — it *contains* `text/` but does not *begin with* any of the
allowed prefixes.  The code stores it; the spec's policy does not. -/
theorem C5_counterexample_contains_vs_begins :
    shouldCacheResponse cfgOne "GET"
      ⟨200, "OK", [("content-type", "x-text/html")], Body.data 1⟩ = true ∧
    specCacheStorePolicy cfgOne "GET"
      ⟨200, "OK", [("content-type", "x-text/html")], Body.data 1⟩ = false := by
  constructor
  · decide
  · decide

/-- C5 (amended): the cache-store predicate holds exactly when caching is
enabled, the method is GET, the response status is 2xx, `Cache-Control`
contains neither `no-cache` nor `private`, and `Content-Type` *contains*
`application/json`, `text/`, or `application/xml` as a substring. -/
theorem C5_cache_store_policy (cfg : ProxyConfig) (method : String)
    (resp : Resp) :
    shouldCacheResponse cfg method resp = true ↔
      (cfg.enableCaching = true ∧ method = "GET" ∧ respOk resp = true ∧
       (match headersGet resp.headers "cache-control" with
        | some cc => strIncludes cc "no-cache" = false ∧
            strIncludes cc "private" = false
        | none => True) ∧
       (strIncludes ((headersGet resp.headers "content-type").getD "")
          "application/json" = true ∨
        strIncludes ((headersGet resp.headers "content-type").getD "")
          "text/" = true ∨
        strIncludes ((headersGet resp.headers "content-type").getD "")
          "application/xml" = true)) := by
  unfold shouldCacheResponse
  cases hcc : headersGet resp.headers "cache-control" with
  | none =>
    by_cases hec : cfg.enableCaching <;>
      by_cases hm : method = "GET" <;>
        by_cases hok : respOk resp <;>
          simp [hcc, hec, hm, hok] <;> tauto
  | some cc =>
    by_cases hec : cfg.enableCaching <;>
      by_cases hm : method = "GET" <;>
        by_cases hok : respOk resp <;>
          by_cases hnc : strIncludes cc "no-cache" <;>
            by_cases hpr : strIncludes cc "private" <;>
              simp [hcc, hec, hm, hok, hnc, hpr] <;> tauto

/-! ## C4 — the transient-weight computation -/

/-- C4: at the failing input — backend `https://a` with a perfect record
(score 0) next to a fresh backend (score 50) — the code's
`scores.get(url) || 50` treats the stored score `0` as absent, so the
computed transient weight of `https://a` is `1`, while the claimed formula
`max(1, ⌊maxScore − score⌋)` with `maxScore = 50 + 1` and `score = 0`
yields `51`. -/
theorem C4_zero_score_weight_divergence :
    performanceScore metricsPerfect "https://a" = 0 ∧
    performanceScore metricsPerfect "https://b" = 50 ∧
    listMax ((performanceScores [backendUsWest, backendAsiaEast]
        metricsPerfect).map Prod.snd) = some 50 ∧
    transientWeight (performanceScores [backendUsWest, backendAsiaEast]
        metricsPerfect) (50 + 1) "https://a" = 1 ∧
    ((max 1 (Int.floor ((50 + 1 : Rat) - 0)) : Int) : Rat) = 51 := by
  refine ⟨?_, ?_, ?_, ?_, ?_⟩
  · simp [performanceScore, metricsPerfect, mapGet]
  · simp [performanceScore, metricsPerfect, mapGet]
  · simp [listMax, performanceScores, performanceScore, metricsPerfect,
      mapGet, mapSet, backendUsWest, backendAsiaEast]
  · simp [transientWeight, performanceScores, performanceScore, metricsPerfect,
      mapGet, mapSet, jsOrRat, backendUsWest, backendAsiaEast]
  · norm_num

/-! ## C2 — the Forwarder's retry loop -/

theorem backoffSeg_zero (a : Nat) : backoffSeg a 0 = [] := rfl

theorem backoffSeg_succ (a k : Nat) :
    backoffSeg a (k + 1) = 2 ^ a * 1000 :: backoffSeg (a + 1) k := rfl

theorem range_map_pow_eq_seg :
    ∀ (i a : Nat), (List.range i).map (fun j => 2 ^ (a + j) * 1000) =
      backoffSeg a i := by
  intro i
  induction i with
  | zero => intro a; rfl
  | succ i ih =>
    intro a
    rw [List.range_succ_eq_map, List.map_cons, List.map_map]
    have hf : ((fun j => 2 ^ (a + j) * 1000) ∘ Nat.succ) =
        (fun j => 2 ^ ((a + 1) + j) * 1000) := by
      funext j
      show 2 ^ (a + (j + 1)) * 1000 = 2 ^ ((a + 1) + j) * 1000
      rw [show a + (j + 1) = (a + 1) + j from by omega]
    rw [hf, ih (a + 1), backoffSeg_succ]
    simp

theorem backoffSleeps_eq_seg (i : Nat) : backoffSleeps i = backoffSeg 0 i := by
  rw [backoffSleeps, ← range_map_pow_eq_seg i 0]
  simp

theorem proxyGo_resp (fetch : Nat → FetchOutcome) :
    ∀ (n retry i attempt : Nat) (le : Option JsError) (sl : List Nat) (r : Resp),
      i - attempt = n → attempt ≤ i → i < retry →
      fetch i = FetchOutcome.resp r →
      (∀ j, attempt ≤ j → j < i → retryableFailureAt fetch j) →
      proxyGo fetch retry attempt le sl =
        (Except.ok r, sl ++ backoffSeg attempt (i - attempt)) := by
  intro n
  induction n with
  | zero =>
    intro retry i attempt le sl r hn hle hlt hresp _
    have hai : attempt = i := by omega
    subst hai
    rw [proxyGo]
    simp [hlt, hresp, hn, backoffSeg_zero]
  | succ n ih =>
    intro retry i attempt le sl r hn hle hlt hresp hpre
    have hai : attempt < i := by omega
    obtain ⟨e, hfe, hre⟩ := hpre attempt le_rfl hai
    have h1 : attempt < retry := by omega
    have h2 : attempt < retry - 1 := by omega
    rw [proxyGo]
    simp only [dif_pos h1, hfe, hre, if_pos h2, if_true]
    rw [ih retry i (attempt + 1) (some e) (sl ++ [2 ^ attempt * 1000]) r
      (by omega) (by omega) hlt hresp
      (fun j hj₁ hj₂ => hpre j (by omega) hj₂)]
    have hseg : i - attempt = (i - (attempt + 1)) + 1 := by omega
    rw [hseg, backoffSeg_succ]
    simp

theorem proxyGo_fatal (fetch : Nat → FetchOutcome) :
    ∀ (n retry i attempt : Nat) (le : Option JsError) (sl : List Nat) (e : JsError),
      i - attempt = n → attempt ≤ i → i < retry →
      fetch i = FetchOutcome.exn e → isRetryableError e = false →
      (∀ j, attempt ≤ j → j < i → retryableFailureAt fetch j) →
      proxyGo fetch retry attempt le sl =
        (Except.error e, sl ++ backoffSeg attempt (i - attempt)) := by
  intro n
  induction n with
  | zero =>
    intro retry i attempt le sl e hn hle hlt hexn hnr _
    have hai : attempt = i := by omega
    subst hai
    rw [proxyGo]
    simp [hlt, hexn, hnr, hn, backoffSeg_zero]
  | succ n ih =>
    intro retry i attempt le sl e hn hle hlt hexn hnr hpre
    have hai : attempt < i := by omega
    obtain ⟨e', hfe', hre'⟩ := hpre attempt le_rfl hai
    have h1 : attempt < retry := by omega
    have h2 : attempt < retry - 1 := by omega
    rw [proxyGo]
    simp only [dif_pos h1, hfe', hre', if_pos h2, if_true]
    rw [ih retry i (attempt + 1) (some e') (sl ++ [2 ^ attempt * 1000]) e
      (by omega) (by omega) hlt hexn hnr
      (fun j hj₁ hj₂ => hpre j (by omega) hj₂)]
    have hseg : i - attempt = (i - (attempt + 1)) + 1 := by omega
    rw [hseg, backoffSeg_succ]
    simp

theorem proxyGo_exhaust (fetch : Nat → FetchOutcome) :
    ∀ (n retry attempt : Nat) (le : Option JsError) (sl : List Nat),
      retry - 1 - attempt = n → attempt < retry →
      (∀ j, attempt ≤ j → j < retry → retryableFailureAt fetch j) →
      ∃ e, fetch (retry - 1) = FetchOutcome.exn e ∧
        proxyGo fetch retry attempt le sl =
          (Except.error e, sl ++ backoffSeg attempt (retry - 1 - attempt)) := by
  intro n
  induction n with
  | zero =>
    intro retry attempt le sl hn hlt hall
    have hai : attempt = retry - 1 := by omega
    obtain ⟨e, hfe, hre⟩ := hall attempt le_rfl hlt
    refine ⟨e, by rw [← hai]; exact hfe, ?_⟩
    rw [proxyGo]
    simp only [dif_pos hlt, hfe, hre]
    have h2 : ¬ attempt < retry - 1 := by omega
    simp only [if_neg h2, if_false]
    rw [proxyGo]
    have h3 : ¬ attempt + 1 < retry := by omega
    simp [h3, hn, backoffSeg_zero]
  | succ n ih =>
    intro retry attempt le sl hn hlt hall
    obtain ⟨e', hfe', hre'⟩ := hall attempt le_rfl hlt
    have h2 : attempt < retry - 1 := by omega
    obtain ⟨e, hfe, heq⟩ := ih retry (attempt + 1) (some e')
      (sl ++ [2 ^ attempt * 1000]) (by omega) (by omega)
      (fun j hj₁ hj₂ => hall j (by omega) hj₂)
    refine ⟨e, hfe, ?_⟩
    rw [proxyGo]
    simp only [dif_pos hlt, hfe', hre', if_pos h2, if_true]
    rw [heq]
    have hseg : retry - 1 - attempt = (retry - 1 - (attempt + 1)) + 1 := by omega
    rw [hseg, backoffSeg_succ]
    simp

/-- C2: with `retryAttempts = n ≥ 1`, the Forwarder makes up to `n` attempts;
a later attempt happens only after a network-class (retryable) failure of
every earlier one, sleeping `2^attempt` seconds between attempts
(1 s, 2 s, …); a non-network-class failure is never retried and is raised
directly; any received HTTP response — whatever its status — is returned
immediately without retrying. -/
theorem C2_forwarder_retry (n : Nat) (fetch : Nat → FetchOutcome)
    (hn : 1 ≤ n) :
    (∀ i r, i < n → fetch i = FetchOutcome.resp r →
      (∀ j, j < i → retryableFailureAt fetch j) →
      proxyServiceRequest n fetch = (Except.ok r, backoffSleeps i)) ∧
    (∀ i e, i < n → fetch i = FetchOutcome.exn e → isRetryableError e = false →
      (∀ j, j < i → retryableFailureAt fetch j) →
      proxyServiceRequest n fetch = (Except.error e, backoffSleeps i)) ∧
    ((∀ j, j < n → retryableFailureAt fetch j) →
      ∃ e, fetch (n - 1) = FetchOutcome.exn e ∧
        proxyServiceRequest n fetch = (Except.error e, backoffSleeps (n - 1))) := by
  refine ⟨?_, ?_, ?_⟩
  · intro i r hi hresp hpre
    have := proxyGo_resp fetch i n i 0 none [] r (by omega) (by omega) hi hresp
      (fun j _ hj => hpre j hj)
    simpa [proxyServiceRequest, backoffSleeps_eq_seg] using this
  · intro i e hi hexn hnr hpre
    have := proxyGo_fatal fetch i n i 0 none [] e (by omega) (by omega) hi hexn
      hnr (fun j _ hj => hpre j hj)
    simpa [proxyServiceRequest, backoffSleeps_eq_seg] using this
  · intro hall
    obtain ⟨e, hfe, heq⟩ := proxyGo_exhaust fetch (n - 1) n 0 none [] (by omega)
      (by omega) (fun j _ hj => hall j hj)
    refine ⟨e, hfe, ?_⟩
    simpa [proxyServiceRequest, backoffSleeps_eq_seg] using heq

/-- Witness for C2 at a concrete input: `retryAttempts = 2`, a network error
on the first attempt, a response on the second; the Forwarder slept exactly
1000 ms and returned the response. -/
theorem C2_witness :
    proxyServiceRequest 2
      (fun j => if j = 0
        then FetchOutcome.exn ⟨"TypeError", "fetch failed: network error"⟩
        else FetchOutcome.resp resp404) =
      (Except.ok resp404, [1000]) := by
  have h := (C2_forwarder_retry 2
    (fun j => if j = 0
      then FetchOutcome.exn ⟨"TypeError", "fetch failed: network error"⟩
      else FetchOutcome.resp resp404) (by norm_num)).1 1 resp404
    (by norm_num) (by norm_num)
    (fun j hj => by
      have hj0 : j = 0 := by omega
      subst hj0
      exact ⟨⟨"TypeError", "fetch failed: network error"⟩, by norm_num, by decide⟩)
  rw [h]
  rfl

/-! ## Selector lemmas -/

theorem weightedRandomSelect_single (b : Backend) (r : Rat) :
    weightedRandomSelect [b] r = some b := by
  have h : weightedRandomSelect [b] r =
      (if List.foldl (fun sum x => sum + x.weight) 0 [b] = 0 then [b].head?
       else wrsWalk [b].getLast? [b]
         (r * List.foldl (fun sum x => sum + x.weight) 0 [b])) := rfl
  rw [h]
  split_ifs with h0
  · rfl
  · unfold wrsWalk
    split_ifs with h1
    · rfl
    · simp [wrsWalk]

theorem selectByPerformance_single (b : Backend) (m : MetricsMap) (r : Rat) :
    selectByPerformance [b] m r =
      some { b with weight := transientWeight [(b.url, performanceScore m b.url)] (performanceScore m b.url + 1) b.url } := by
  have h : selectByPerformance [b] m r =
      weightedRandomSelect
        [{ b with weight := transientWeight [(b.url, performanceScore m b.url)] (performanceScore m b.url + 1) b.url }] r := rfl
  rw [h, weightedRandomSelect_single]

theorem wrsWalk_some_mem :
    ∀ (l : List Backend) (random : Rat) (fb : Option Backend) (b : Backend),
      wrsWalk fb l random = some b → b ∈ l ∨ fb = some b := by
  intro l
  induction l with
  | nil =>
    intro random fb b h
    exact Or.inr h
  | cons x rest ih =>
    intro random fb b h
    unfold wrsWalk at h
    by_cases hc : random - x.weight ≤ 0
    · rw [if_pos hc] at h
      injection h with h
      exact Or.inl (by rw [← h]; exact List.mem_cons_self x rest)
    · rw [if_neg hc] at h
      rcases ih _ _ _ h with h' | h'
      · exact Or.inl (List.mem_cons_of_mem x h')
      · exact Or.inr h'

theorem wrsWalk_isSome :
    ∀ (l : List Backend) (random : Rat) (b₀ : Backend),
      ∃ b, wrsWalk (some b₀) l random = some b := by
  intro l
  induction l with
  | nil => intro random b₀; exact ⟨b₀, rfl⟩
  | cons x rest ih =>
    intro random b₀
    unfold wrsWalk
    by_cases hc : random - x.weight ≤ 0
    · exact ⟨x, by rw [if_pos hc]⟩
    · obtain ⟨b, hb⟩ := ih (random - x.weight) b₀
      exact ⟨b, by rw [if_neg hc]; exact hb⟩

theorem getLast?_of_ne_nil :
    ∀ (l : List Backend) (x : Backend),
      ∃ bl, (x :: l).getLast? = some bl ∧ bl ∈ x :: l := by
  intro l
  induction l with
  | nil => intro x; exact ⟨x, rfl, List.mem_cons_self x []⟩
  | cons y t ih =>
    intro x
    obtain ⟨bl, hbl, hmem⟩ := ih y
    exact ⟨bl, by rw [List.getLast?_cons_cons]; exact hbl,
      List.mem_cons_of_mem x hmem⟩

theorem weightedRandomSelect_mem (bs : List Backend) (r : Rat)
    (hne : bs ≠ []) :
    ∃ b, weightedRandomSelect bs r = some b ∧ b ∈ bs := by
  unfold weightedRandomSelect
  by_cases h0 : (bs.foldl (fun sum b => sum + b.weight) 0) = 0
  · rw [if_pos h0]
    cases bs with
    | nil => exact absurd rfl hne
    | cons x xs => exact ⟨x, rfl, List.mem_cons_self x xs⟩
  · rw [if_neg h0]
    cases bs with
    | nil => exact absurd rfl hne
    | cons x xs =>
      obtain ⟨bl, hbl, hblmem⟩ := getLast?_of_ne_nil xs x
      rw [hbl]
      obtain ⟨b, hb⟩ := wrsWalk_isSome (x :: xs) _ bl
      refine ⟨b, hb, ?_⟩
      rcases wrsWalk_some_mem (x :: xs) _ (some bl) b hb with h' | h'
      · exact h'
      · injection h' with h'
        rw [← h']
        exact hblmem

theorem mapSet_ne_nil {α : Type} (m : List (String × α)) (k : String) (v : α) :
    mapSet m k v ≠ [] := by
  cases m with
  | nil => simp [mapSet]
  | cons p rest =>
    unfold mapSet
    split_ifs <;> simp

theorem performanceScores_ne_nil (bs : List Backend) (m : MetricsMap)
    (hne : bs ≠ []) : performanceScores bs m ≠ [] := by
  have hgen : ∀ (l : List Backend) (acc : List (String × Rat)), acc ≠ [] →
      l.foldl (fun scores b => mapSet scores b.url (performanceScore m b.url))
        acc ≠ [] := by
    intro l
    induction l with
    | nil => intro acc hacc; exact hacc
    | cons b rest ih =>
      intro acc _
      exact ih _ (mapSet_ne_nil acc b.url _)
  cases bs with
  | nil => exact absurd rfl hne
  | cons b rest =>
    unfold performanceScores
    rw [List.foldl_cons]
    exact hgen rest _ (mapSet_ne_nil [] b.url _)

theorem listMax_eq_none_iff (l : List Rat) : listMax l = none ↔ l = [] := by
  cases l <;> simp [listMax]

theorem selectByPerformance_mem (bs : List Backend) (m : MetricsMap) (r : Rat)
    (hne : bs ≠ []) :
    ∃ b a, selectByPerformance bs m r = some b ∧ a ∈ bs ∧
      b.url = a.url ∧ b.region = a.region := by
  have hunfold : selectByPerformance bs m r =
      (match listMax ((performanceScores bs m).map Prod.snd) with
       | none => none
       | some mx => weightedRandomSelect (bs.map (fun b => { b with weight := transientWeight (performanceScores bs m) (mx + 1) b.url })) r) := rfl
  cases hmax : listMax ((performanceScores bs m).map Prod.snd) with
  | none =>
    rw [listMax_eq_none_iff] at hmax
    have hpne := performanceScores_ne_nil bs m hne
    rw [List.map_eq_nil_iff] at hmax
    exact absurd hmax hpne
  | some mx =>
    have hmne : bs.map (fun b => { b with weight := transientWeight (performanceScores bs m) (mx + 1) b.url }) ≠ [] := by
      simpa using hne
    obtain ⟨b, hb, hbm⟩ := weightedRandomSelect_mem _ r hmne
    obtain ⟨a, ham, hfa⟩ := List.mem_map.mp hbm
    refine ⟨b, a, ?_, ham, by rw [← hfa], by rw [← hfa]⟩
    rw [hunfold, hmax]
    exact hb

theorem getRegionalBackends_subset (bs : List Backend) (c : String) :
    ∀ b ∈ getRegionalBackends bs c, b ∈ bs := by
  intro b hb
  unfold getRegionalBackends at hb
  by_cases h1 : c = "" ∨ c = "unknown"
  · rw [if_pos h1] at hb
    exact absurd hb (List.not_mem_nil b)
  · rw [if_neg h1] at hb
    cases hm : mapGet REGION_MAP (upperStr c) with
    | none => rw [hm] at hb; exact absurd hb (List.not_mem_nil b)
    | some pr =>
      rw [hm] at hb
      simp only [] at hb
      split_ifs at hb <;> exact (List.mem_filter.mp hb).1

/-! ## C6 — regional narrowing -/

/-- C6: when the country maps to a preferred region, exact case-insensitive
region matches are taken first; only if none exist, backends whose lowercased
region contains some `-`-separated part of the preferred region as a
substring; if that is also empty, selection uses all candidates.  In the
concrete scenario — backends `us-west` and `asia-east`, country `JP`
(mapped to `asia-northeast`) — the narrowed set is `[backendAsiaEast]` and
selection returns it for every metrics snapshot and every random draw. -/
theorem C6_regional_narrowing :
    (∀ (backends : List Backend) (country preferredRegion : String),
      mapGet REGION_MAP (upperStr country) = some preferredRegion →
      ¬(country = "" ∨ country = "unknown") →
      (backends.filter
        (fun b => lowerStr b.region = lowerStr preferredRegion)).length ≠ 0 →
      getRegionalBackends backends country =
        backends.filter
          (fun b => lowerStr b.region = lowerStr preferredRegion)) ∧
    (∀ (backends : List Backend) (country preferredRegion : String),
      mapGet REGION_MAP (upperStr country) = some preferredRegion →
      ¬(country = "" ∨ country = "unknown") →
      (backends.filter
        (fun b => lowerStr b.region = lowerStr preferredRegion)).length = 0 →
      getRegionalBackends backends country =
        backends.filter (fun b => (strSplit preferredRegion '-').any
          (fun part => strIncludes (lowerStr b.region) part))) ∧
    (∀ (backends : List Backend) (info : RequestInfo) (r : Rat),
      getRegionalBackends backends info.country = [] →
      backends.length ≠ 1 →
      selectBackend backends info none r = weightedRandomSelect backends r) ∧
    (getRegionalBackends [backendUsWest, backendAsiaEast] "JP" =
      [backendAsiaEast]) ∧
    (∀ (metrics : Option MetricsMap) (r : Rat),
      ∃ b, selectBackend [backendUsWest, backendAsiaEast] requestInfoJP
          metrics r = some b ∧
        b.url = backendAsiaEast.url ∧ b.region = backendAsiaEast.region) := by
  refine ⟨?_, ?_, ?_, by decide, ?_⟩
  · intro backends country pr hpr hc hlen
    unfold getRegionalBackends
    rw [if_neg hc, hpr]
    simp only [if_neg hlen]
  · intro backends country pr hpr hc hlen
    unfold getRegionalBackends
    rw [if_neg hc, hpr]
    simp only [if_pos hlen]
  · intro backends info r hreg hlen
    unfold selectBackend
    rw [if_neg hlen, hreg]
    simp
  · intro metrics r
    have hreg : getRegionalBackends [backendUsWest, backendAsiaEast]
        requestInfoJP.country = [backendAsiaEast] := by decide
    cases metrics with
    | none =>
      have hstep : selectBackend [backendUsWest, backendAsiaEast]
          requestInfoJP none r = weightedRandomSelect [backendAsiaEast] r := by
        unfold selectBackend
        rw [hreg]
        norm_num
      rw [hstep, weightedRandomSelect_single]
      exact ⟨backendAsiaEast, rfl, rfl, rfl⟩
    | some m =>
      by_cases hm : m.length > 0
      · have hstep : selectBackend [backendUsWest, backendAsiaEast]
            requestInfoJP (some m) r = selectByPerformance [backendAsiaEast] m r := by
          unfold selectBackend
          rw [hreg]
          norm_num [hm]
        rw [hstep, selectByPerformance_single]
        exact ⟨_, rfl, rfl, rfl⟩
      · have hstep : selectBackend [backendUsWest, backendAsiaEast]
            requestInfoJP (some m) r = weightedRandomSelect [backendAsiaEast] r := by
          unfold selectBackend
          rw [hreg]
          norm_num [hm]
        rw [hstep, weightedRandomSelect_single]
        exact ⟨backendAsiaEast, rfl, rfl, rfl⟩

/-- Witness for C6 at a concrete input: country JP, no metrics,
draw `1/2`. -/
theorem C6_witness :
    ∃ b, selectBackend [backendUsWest, backendAsiaEast] requestInfoJP none
        (1 / 2) = some b ∧
      b.url = backendAsiaEast.url ∧ b.region = backendAsiaEast.region :=
  C6_regional_narrowing.2.2.2.2 none (1 / 2)

/-! ## C10 — selection safety -/

/-- C10: on any non-empty candidate list, `selectBackend` returns a backend
whose `url` and `region` are those of some element of the input list, on
every path (singleton, regional narrowing, performance weighting, weighted
random walk with its zero-total and fall-through cases). -/
theorem C10_selectBackend_safety (backends : List Backend)
    (info : RequestInfo) (metrics : Option MetricsMap) (r : Rat)
    (hne : backends ≠ []) :
    ∃ chosen origin, selectBackend backends info metrics r = some chosen ∧
      origin ∈ backends ∧ chosen.url = origin.url ∧
      chosen.region = origin.region := by
  by_cases h1 : backends.length = 1
  · cases backends with
    | nil => exact absurd rfl hne
    | cons x xs =>
      refine ⟨x, x, ?_, List.mem_cons_self x xs, rfl, rfl⟩
      unfold selectBackend
      rw [if_pos h1]
      rfl
  · have hstep : selectBackend backends info metrics r =
        (match metrics with
         | some m =>
           if m.length > 0 then
             selectByPerformance
               (if (getRegionalBackends backends info.country).length > 0
                then getRegionalBackends backends info.country else backends) m r
           else
             weightedRandomSelect
               (if (getRegionalBackends backends info.country).length > 0
                then getRegionalBackends backends info.country else backends) r
         | none =>
           weightedRandomSelect
             (if (getRegionalBackends backends info.country).length > 0
              then getRegionalBackends backends info.country else backends) r) := by
      unfold selectBackend
      rw [if_neg h1]
    rw [hstep]
    set cands := if (getRegionalBackends backends info.country).length > 0
      then getRegionalBackends backends info.country else backends with hcands
    have hcne : cands ≠ [] := by
      rw [hcands]
      split_ifs with hr
      · intro hnil
        rw [hnil] at hr
        simp at hr
      · exact hne
    have hsub : ∀ b ∈ cands, b ∈ backends := by
      rw [hcands]
      split_ifs with hr
      · exact getRegionalBackends_subset backends info.country
      · intro b hb
        exact hb
    cases metrics with
    | none =>
      obtain ⟨b, hb, hbm⟩ := weightedRandomSelect_mem cands r hcne
      exact ⟨b, b, hb, hsub b hbm, rfl, rfl⟩
    | some m =>
      have hred : (match some m with
          | some m => if List.length m > 0 then selectByPerformance cands m r
              else weightedRandomSelect cands r
          | none => weightedRandomSelect cands r) =
          (if List.length m > 0 then selectByPerformance cands m r
           else weightedRandomSelect cands r) := rfl
      rw [hred]
      by_cases hm : m.length > 0
      · rw [if_pos hm]
        obtain ⟨b, a, hb, ham, hu, hrg⟩ := selectByPerformance_mem cands m r hcne
        exact ⟨b, a, hb, hsub a ham, hu, hrg⟩
      · rw [if_neg hm]
        obtain ⟨b, hb, hbm⟩ := weightedRandomSelect_mem cands r hcne
        exact ⟨b, b, hb, hsub b hbm, rfl, rfl⟩

/-- Witness for C10 at a concrete input: two backends, no metrics,
draw `1/2`. -/
theorem C10_witness :
    ∃ chosen origin,
      selectBackend [backendUsWest, backendAsiaEast] requestInfoJP none
        (1 / 2) = some chosen ∧
      origin ∈ [backendUsWest, backendAsiaEast] ∧
      chosen.url = origin.url ∧ chosen.region = origin.region :=
  C10_selectBackend_safety [backendUsWest, backendAsiaEast] requestInfoJP
    none (1 / 2) (by decide)

/-! ## Header lemmas -/

theorem headersGet_headersSet_self (hs : List (String × String))
    (name v : String) : headersGet (headersSet hs name v) name = some v := by
  induction hs with
  | nil => simp [headersGet, headersSet]
  | cons p rest ih =>
    by_cases hp : lowerStr p.1 = lowerStr name
    · simp [headersGet, headersSet, hp]
    · simp [headersGet, headersSet, hp, ih]

theorem headersGet_headersSet_ne (hs : List (String × String))
    (name name' v : String) (h : lowerStr name' ≠ lowerStr name) :
    headersGet (headersSet hs name v) name' = headersGet hs name' := by
  induction hs with
  | nil => simp [headersGet, headersSet, Ne.symm h]
  | cons p rest ih =>
    by_cases hp : lowerStr p.1 = lowerStr name
    · have hp' : lowerStr p.1 ≠ lowerStr name' := by rw [hp]; exact (Ne.symm h)
      simp [headersGet, headersSet, hp, hp', Ne.symm h]
    · by_cases hp' : lowerStr p.1 = lowerStr name'
      · simp [headersGet, headersSet, hp, hp', h]
      · simp [headersGet, headersSet, hp, hp', ih]

/-! ## C1 — failover-loop classification of sub-500 responses -/

/-- C1 counterexample: one backend with `consecutiveFailures = 2`, a 404
(`< 500`) upstream response.  The loop returns the annotated 404, but the
health table is unchanged — `consecutiveFailures` is still `2`, whereas
`MarkHealthy` would have reset it to `0`, so `MarkHealthy` was not called. -/
theorem C1_counterexample_404_not_marked_healthy :
    proxyRequestWithFallback cfgOne ⟨"GET", "/x", []⟩ [] (fun _ => 0)
      (fun _ => Except.ok resp404) [backendUsWest] healthTwoFailures =
      (Except.ok (annotateResp resp404 backendUsWest), healthTwoFailures,
       [Event.attempt 0 "https://a"]) ∧
    resp404.status < 500 ∧
    mapGet healthTwoFailures "https://a" = some ⟨true, 0, 2, 0⟩ ∧
    mapGet (markBackendHealthy healthTwoFailures "https://a") "https://a" =
      some ⟨true, 0, 0, 0⟩ ∧
    markBackendHealthy healthTwoFailures "https://a" ≠ healthTwoFailures := by
  refine ⟨?_, by decide, by decide, by decide, by decide⟩
  unfold proxyRequestWithFallback
  rw [fallbackGo]
  have hsel : selectBackend [backendUsWest]
      (parseRequest ⟨"GET", "/x", []⟩) (some ([] : MetricsMap)) 0 =
      some backendUsWest := by decide
  have hok : respOk resp404 = false := by decide
  simp only [hsel, hok]
  norm_num [resp404, backendUsWest]

/-- C1 (amended): in the failover loop, an attempt that yields an HTTP
response with a 2xx status is marked healthy, annotated with `X-Backend-URL`
and `X-Backend-Region`, and returned; an attempt that yields any other
status `< 500` (3xx/4xx) is annotated and returned **without** any change to
the backend's health record — `MarkHealthy` is called only for 2xx. -/
theorem C1_fallback_sub500 (cfg : ProxyConfig) (backends : List Backend)
    (info : RequestInfo) (metrics : MetricsMap) (randoms : Nat → Rat)
    (attemptRes : Nat → Except JsError Resp) (bound i : Nat)
    (health : HealthMap) (lastError : Option JsError) (events : List Event)
    (b : Backend) (r : Resp)
    (hi : i < bound)
    (hsel : selectBackend backends info (some metrics) (randoms i) = some b)
    (hres : attemptRes i = Except.ok r)
    (hlt : r.status < 500) :
    (respOk r = true →
      fallbackGo cfg backends info metrics randoms attemptRes bound i health
        lastError events =
        (Except.ok (annotateResp r b), markBackendHealthy health b.url,
         events ++ [Event.attempt i b.url])) ∧
    (respOk r = false →
      fallbackGo cfg backends info metrics randoms attemptRes bound i health
        lastError events =
        (Except.ok (annotateResp r b), health,
         events ++ [Event.attempt i b.url])) ∧
    headersGet (annotateResp r b).headers "X-Backend-URL" = some b.url ∧
    headersGet (annotateResp r b).headers "X-Backend-Region" = some b.region := by
  have h500 : ¬ 500 ≤ r.status := by omega
  refine ⟨?_, ?_, ?_, ?_⟩
  · intro hok
    rw [fallbackGo]
    simp only [dif_pos hi, hsel, hres, hok, if_true]
  · intro hok
    rw [fallbackGo]
    simp only [dif_pos hi, hsel, hres, hok, h500]
    simp
  · unfold annotateResp
    rw [headersGet_headersSet_ne _ _ _ _ (by decide),
      headersGet_headersSet_self]
  · unfold annotateResp
    rw [headersGet_headersSet_self]

/-- Witness for C1 (amended) at a concrete input: a 200 response on the
first iteration is marked healthy, annotated and returned. -/
theorem C1_witness :
    fallbackGo cfgOne [backendUsWest] requestInfoJP [] (fun _ => 0)
      (fun _ => Except.ok resp200) 1 0 healthTwoFailures none [] =
      (Except.ok (annotateResp resp200 backendUsWest),
       markBackendHealthy healthTwoFailures backendUsWest.url,
       [] ++ [Event.attempt 0 backendUsWest.url]) :=
  (C1_fallback_sub500 cfgOne [backendUsWest] requestInfoJP [] (fun _ => 0)
    (fun _ => Except.ok resp200) 1 0 healthTwoFailures none []
    backendUsWest resp200 (by decide) (by decide) rfl (by decide)).1 (by decide)

/-! ## C9 — oversize requests are rejected up front -/

/-- C9: a request whose `Content-Length` parses to a value exceeding
10 MiB is rejected with a 413 JSON error before any cache lookup, probe,
selection or upstream attempt (the event trace is empty), and the health and
metrics tables are returned unchanged. -/
theorem C9_oversize_reject (cfg : ProxyConfig) (req : Req)
    (health : HealthMap) (metrics : MetricsMap) (o : DispatchOracles)
    (cl : String) (v : Int)
    (hcl : headersGet req.headers "content-length" = some cl)
    (hne : cl ≠ "")
    (hv : jsParseInt cl = some v)
    (hgt : 10 * 1024 * 1024 < v) :
    handleRequest cfg req health metrics o =
      (createErrorResponse "Request too large" 413, health, metrics, []) ∧
    (createErrorResponse "Request too large" 413).status = 413 ∧
    (createErrorResponse "Request too large" 413).body =
      Body.errorJson "Request too large" 413 := by
  have htoo : isRequestTooLarge req = true := by
    unfold isRequestTooLarge
    rw [hcl]
    show (if cl = "" then false
      else match jsParseInt cl with
        | some v => decide (10 * 1024 * 1024 < v)
        | none => false) = true
    rw [if_neg hne, hv]
    show decide (10 * 1024 * 1024 < v) = true
    exact decide_eq_true hgt
  refine ⟨?_, rfl, rfl⟩
  unfold handleRequest
  rw [if_pos htoo]

/-- Witness for C9 at the spec's concrete input:
`Content-Length: 20971520`. -/
theorem C9_witness :
    handleRequest cfgOne reqOversize healthTwoFailures [] oraclesFixed =
      (createErrorResponse "Request too large" 413, healthTwoFailures, [], []) ∧
    (createErrorResponse "Request too large" 413).status = 413 ∧
    (createErrorResponse "Request too large" 413).body =
      Body.errorJson "Request too large" 413 :=
  C9_oversize_reject cfgOne reqOversize healthTwoFailures [] oraclesFixed
    "20971520" 20971520 (by decide) (by decide) (by decide) (by norm_num)

end ProxyWorker
